import Mathlib

/-!
Shallow embedding of the blackjack simulator in `src/App.jsx` and proofs
about its game logic: hand valuation, the auto-play strategy table, the
dealer draw loop, settlement, dealing (including the immediate blackjack
resolution), and the round state machine with its bankroll invariant.
-/

namespace Blackjack

/-- Card suits, from the `suits` constant in App.jsx. -/
inductive Suit where
  | hearts | diamonds | clubs | spades
deriving DecidableEq, Repr

/-- Card ranks, from the `ranks` constant in App.jsx
(`'2' .. '10', 'J', 'Q', 'K', 'A'`). -/
inductive Rank where
  | two | three | four | five | six | seven | eight | nine | ten
  | jack | queen | king | ace
deriving DecidableEq, Repr

/-- The numeric `value` field that `createDeck` stores with each card:
10 for J/Q/K, 11 for an ace, otherwise the numeric rank. -/
def Rank.value : Rank → Nat
  | .two => 2 | .three => 3 | .four => 4 | .five => 5 | .six => 6
  | .seven => 7 | .eight => 8 | .nine => 9 | .ten => 10
  | .jack => 10 | .queen => 10 | .king => 10 | .ace => 11

/-- A card as built by `createDeck`.  In the source each card carries a
`value` field computed from the rank at deck-construction time; here it is
the derived function `Card.value`. -/
structure Card where
  suit : Suit
  rank : Rank
deriving DecidableEq, Repr

/-- The derived `value` field of a card (see `createDeck` in App.jsx). -/
def Card.value (c : Card) : Nat := c.rank.value

/-- A hand is an ordered list of cards. -/
abbrev Hand := List Card

def allSuits : List Suit := [.hearts, .diamonds, .clubs, .spades]

def allRanks : List Rank :=
  [.two, .three, .four, .five, .six, .seven, .eight, .nine, .ten,
   .jack, .queen, .king, .ace]

/-- `createDeck` from App.jsx: one card per (suit, rank) pair, suits outer
loop, ranks inner loop. -/
def createDeck : List Card :=
  (allSuits.map (fun s => allRanks.map (fun r => Card.mk s r))).flatten

/-- Result of `calculateHandValue`: `{total, isSoft}`. -/
structure HandValue where
  total : Nat
  isSoft : Bool
deriving DecidableEq, Repr

/-- First pass of `calculateHandValue`: sum the card values (an ace adds 11,
which equals its stored `value`) and count aces. -/
def sumAndAces (hand : Hand) : Nat × Nat :=
  hand.foldl
    (fun acc c =>
      if c.rank = Rank.ace then (acc.1 + 11, acc.2 + 1)
      else (acc.1 + c.value, acc.2))
    (0, 0)

/-- Second pass of `calculateHandValue`: `while (total > 21 && numAces > 0)
{ total -= 10; numAces--; }`.  Returns the final total and the number of
aces still counted as 11. -/
def adjustAces (total : Nat) : Nat → Nat × Nat
  | 0 => (total, 0)
  | n + 1 => if total > 21 then adjustAces (total - 10) n else (total, n + 1)

/-- `calculateHandValue` from App.jsx: total with aces demoted from 11 to 1
while the hand busts; soft iff an ace still counts as 11. -/
def calculateHandValue (hand : Hand) : HandValue :=
  let (total, numAces) := sumAndAces hand
  let (total, numAces) := adjustAces total numAces
  ⟨total, numAces > 0⟩

/-- Dealer up-card value used by the strategy table in `shouldAutoPlayHit`:
ace is 11, faces are 10, otherwise the numeric rank — identical to the
card's stored value. -/
def dealerUpCardValue (c : Card) : Nat :=
  if c.rank = Rank.ace then 11
  else if c.rank = Rank.jack ∨ c.rank = Rank.queen ∨ c.rank = Rank.king then 10
  else c.rank.value

/-- `shouldAutoPlayHit` from App.jsx: the auto-play hit/stand decision. -/
def shouldAutoPlayHit (playerHand : Hand) (dealerUpCard : Card)
    (playerCardCount : Nat) : Bool :=
  let hv := calculateHandValue playerHand
  let playerTotal := hv.total
  let playerIsSoft := hv.isSoft
  let v := dealerUpCardValue dealerUpCard
  if playerCardCount = 5 ∧ playerTotal ≤ 21 ∧ 21 - playerTotal ≥ 10 then
    true
  else if playerTotal ≥ 21 then
    false
  else if playerIsSoft then
    if playerTotal ≤ 17 then true
    else if playerTotal = 18 then ¬(v ∈ [2, 3, 4, 5, 6, 7, 8])
    else false
  else
    if playerTotal ≤ 11 then true
    else if playerTotal = 12 then ¬(v ∈ [4, 5, 6])
    else if 13 ≤ playerTotal ∧ playerTotal ≤ 16 then ¬(v ∈ [2, 3, 4, 5, 6])
    else false

/-- Outcome of a hand, the `lastHandResult` values in App.jsx
(`''`, `'Win'`, `'Loss'`, `'Push'`). -/
inductive Outcome where
  | blank | win | loss | push
deriving DecidableEq, Repr

/-- Result of `determineWinner`: the message, the hand result, and the
change applied to the bankroll (`newBankroll - bankroll`). -/
structure SettleResult where
  message : String
  result : Outcome
  delta : Int
deriving DecidableEq, Repr

/-- `determineWinner` from App.jsx, expressed as the (message, result,
bankroll delta) it produces from the two final hands and the bet. -/
def determineWinner (playerHand dealerHand : Hand) (bet : Int) : SettleResult :=
  let playerVal := (calculateHandValue playerHand).total
  let dealerVal := (calculateHandValue dealerHand).total
  if playerVal > 21 then
    ⟨"You busted! Dealer wins.", .loss, 0⟩
  else if dealerVal > 21 then
    ⟨"Dealer busted! You win!", .win, bet * 2⟩
  else if playerHand.length = 6 ∧ playerVal ≤ 21 then
    ⟨"6 Card Charlie! You win automatically!", .win, bet * 2⟩
  else if dealerHand.length = 6 ∧ dealerVal < 17 then
    ⟨"Dealer 6 Card Charlie! Dealer loses!", .win, bet * 2⟩
  else if playerVal > dealerVal then
    ⟨"You win!", .win, bet * 2⟩
  else if dealerVal > playerVal then
    ⟨"Dealer wins.", .loss, 0⟩
  else
    ⟨"It\x27s a push!", .push, bet⟩

/-- The dealer draw-loop condition in `dealerPlay`
(`dealerTotal < 17 && currentDealerHand.length < 6`). -/
def dealerShouldDraw (hand : Hand) : Bool :=
  decide ((calculateHandValue hand).total < 17) && decide (hand.length < 6)

/-- `deck.pop()`: removes and returns the last element of the array. -/
def popCard (deck : List Card) : Option (Card × List Card) :=
  match deck.getLast? with
  | none => none
  | some c => some (c, deck.dropLast)

/-- The four consecutive `pop()` calls in `dealHand` that produce the player
hand, the dealer hand, and the remaining deck. -/
def draw4 (deck : List Card) : Option (Card × Card × Card × Card × List Card) :=
  match popCard deck with
  | none => none
  | some (c1, d1) =>
    match popCard d1 with
    | none => none
    | some (c2, d2) =>
      match popCard d2 with
      | none => none
      | some (c3, d3) =>
        match popCard d3 with
        | none => none
        | some (c4, d4) => some (c1, c2, c3, c4, d4)

/-- The `gamePhase` values of App.jsx.  `'autoPlay'` is tested by the
`hitPlayer`/`standPlayer` guards but never assigned anywhere; it is kept so
those guards can be embedded verbatim. -/
inductive Phase where
  | betting | playerTurn | dealerTurn | result | autoPlay
deriving DecidableEq, Repr

/-- The mutable game state of the `BlackjackGame` component (the `useState`
variables; `points` is omitted as it is the derived `floor(throughput/10)`). -/
structure GameState where
  bankroll : Int
  throughput : Int
  deck : List Card
  playerHand : Hand
  dealerHand : Hand
  betAmount : Int
  gamePhase : Phase
  message : String
  autoPlayMode : Bool
  lastPlayerTotal : Nat
  lastDealerTotal : Nat
  lastHandResult : Outcome
deriving DecidableEq, Repr

/-- The initial state of the component (`useState` initial values). -/
def initState : GameState :=
  { bankroll := 1000, throughput := 0, deck := [], playerHand := [],
    dealerHand := [], betAmount := 10, gamePhase := .betting,
    message := "Place your bet and click Deal!", autoPlayMode := false,
    lastPlayerTotal := 0, lastDealerTotal := 0, lastHandResult := .blank }

/-- `resetGame` from App.jsx. -/
def resetGame (s : GameState) : GameState :=
  { s with
      bankroll := 1000, throughput := 0, deck := [], playerHand := [],
      dealerHand := [], gamePhase := .betting,
      message := "Game reset! Place your bet and click Deal!",
      lastPlayerTotal := 0, lastDealerTotal := 0, lastHandResult := .blank,
      autoPlayMode := false }

/-- `dealHand` from App.jsx.  `shuffled` stands for the
`shuffleDeck(createDeck())` result consumed by this call; the state updates
are applied in the order the source issues them, so the second
dealer-blackjack `if` (which is not an `else if`) can overwrite the result
set by the both-blackjack branch. -/
def dealHand (s : GameState) (shuffled : List Card) : GameState :=
  if ¬(s.gamePhase = .betting ∨ s.gamePhase = .result) then s
  else if s.bankroll < s.betAmount then
    { s with
        message := "Not enough money to place this bet!",
        autoPlayMode := if s.autoPlayMode then false else s.autoPlayMode }
  else
    match draw4 shuffled with
    | none => s
    | some (c1, c2, c3, c4, newDeck) =>
      let newPlayerHand : Hand := [c1, c2]
      let newDealerHand : Hand := [c3, c4]
      let s1 : GameState :=
        { s with
            bankroll := s.bankroll - s.betAmount,
            throughput := s.throughput + s.betAmount,
            deck := newDeck, playerHand := newPlayerHand,
            dealerHand := newDealerHand, gamePhase := .playerTurn,
            message := "Your turn: Hit or Stand?",
            lastPlayerTotal := 0, lastDealerTotal := 0, lastHandResult := .blank }
      let playerVal := (calculateHandValue newPlayerHand).total
      let dealerVal := (calculateHandValue newDealerHand).total
      let s2 : GameState :=
        if playerVal = 21 ∧ newPlayerHand.length = 2 then
          if dealerVal = 21 ∧ newDealerHand.length = 2 then
            { s1 with
                message := "Both have Blackjack! Push.",
                bankroll := s1.bankroll + s.betAmount, gamePhase := .result,
                lastHandResult := .push, lastPlayerTotal := playerVal,
                lastDealerTotal := dealerVal }
          else
            { s1 with
                message := "Blackjack! You win!",
                bankroll := s1.bankroll + s.betAmount * 2, gamePhase := .result,
                lastHandResult := .win, lastPlayerTotal := playerVal,
                lastDealerTotal := dealerVal }
        else s1
      if dealerVal = 21 ∧ newDealerHand.length = 2 then
        { s2 with
            message := "Dealer has Blackjack! You lose.",
            gamePhase := .result, lastHandResult := .loss,
            lastPlayerTotal := playerVal, lastDealerTotal := dealerVal }
      else s2

/-- `hitPlayer` from App.jsx. -/
def hitPlayer (s : GameState) : GameState :=
  if ¬(s.gamePhase = .playerTurn ∨ s.gamePhase = .autoPlay) then s
  else
    match popCard s.deck with
    | none =>
      { s with
          message := "Deck is empty! Please Reset the game.",
          autoPlayMode := if s.autoPlayMode then false else s.autoPlayMode }
    | some (c, newDeck) =>
      let newPlayerHand := s.playerHand ++ [c]
      let playerTotal := (calculateHandValue newPlayerHand).total
      if newPlayerHand.length = 6 ∧ playerTotal ≤ 21 then
        { s with
            playerHand := newPlayerHand, deck := newDeck,
            message := "6 Card Charlie! You win automatically!",
            bankroll := s.bankroll + s.betAmount * 2, gamePhase := .result,
            lastHandResult := .win, lastPlayerTotal := playerTotal,
            lastDealerTotal := (calculateHandValue s.dealerHand).total }
      else if playerTotal > 21 then
        { s with
            playerHand := newPlayerHand, deck := newDeck,
            message := "You busted! Dealer wins.", gamePhase := .result,
            lastHandResult := .loss, lastPlayerTotal := playerTotal,
            lastDealerTotal := (calculateHandValue s.dealerHand).total }
      else
        { s with
            playerHand := newPlayerHand, deck := newDeck,
            message := if ¬s.autoPlayMode then "Your turn: Hit or Stand?"
              else s.message }

/-- `standPlayer` from App.jsx. -/
def standPlayer (s : GameState) : GameState :=
  if ¬(s.gamePhase = .playerTurn ∨ s.gamePhase = .autoPlay) then s
  else { s with
      gamePhase := .dealerTurn, message := "Dealer is playing..." }

/-- The dealer draw loop inside `dealerPlay`: draw from the end of the deck
while `dealerShouldDraw` holds, breaking (flag `true`) if the deck runs
out. Returns the remaining deck, the final dealer hand, and the
empty-deck-break flag. -/
def dealerDrawLoop (deck : List Card) (hand : Hand) : List Card × Hand × Bool :=
  if dealerShouldDraw hand = true then
    match h : popCard deck with
    | none => (deck, hand, true)
    | some (c, rest) => dealerDrawLoop rest (hand ++ [c])
  else (deck, hand, false)
termination_by deck.length
decreasing_by
  simp only [popCard] at h
  cases hd : deck.getLast? with
  | none => rw [hd] at h; exact absurd h (by simp)
  | some c0 =>
    rw [hd] at h
    have hne : deck ≠ [] := by
      intro he; rw [he] at hd; simp at hd
    have : rest = deck.dropLast := by
      simp only [Option.some.injEq, Prod.mk.injEq] at h; exact h.2.symm
    rw [this, List.length_dropLast]
    have := List.length_pos.mpr hne
    omega

/-- `dealerPlay` from App.jsx (timing delays dropped): runs the draw loop,
then either resolves the dealer 6-card Charlie directly or calls
`determineWinner`, and finally records the two totals. -/
def dealerPlayFn (s : GameState) : GameState :=
  let (newDeck, newDealerHand, broke) := dealerDrawLoop s.deck s.dealerHand
  let dealerTotal := (calculateHandValue newDealerHand).total
  let s1 : GameState :=
    { s with
        deck := newDeck, dealerHand := newDealerHand,
        message := if broke then "Deck is empty! Dealer cannot draw more."
          else s.message }
  let s2 : GameState :=
    if newDealerHand.length = 6 ∧ dealerTotal < 17 then
      { s1 with
          message := "Dealer 6 Card Charlie! Dealer loses!",
          bankroll := s1.bankroll + s.betAmount * 2, gamePhase := .result,
          lastHandResult := .win }
    else
      let r := determineWinner s.playerHand newDealerHand s.betAmount
      { s1 with
          message := r.message, lastHandResult := r.result,
          gamePhase := .result, bankroll := s1.bankroll + r.delta }
  { s2 with
      lastDealerTotal := dealerTotal,
      lastPlayerTotal := (calculateHandValue s.playerHand).total }

/-- The auto-play toggle button handler. -/
def toggleAutoPlay (s : GameState) : GameState :=
  { s with
      autoPlayMode := ¬s.autoPlayMode,
      message := if s.autoPlayMode then "Auto-play stopped."
        else "Auto-play started..." }

/-- The bet denominations offered by the bet `select` element. -/
def betDenominations : List Int :=
  [1, 2, 3, 4, 5, 10, 15, 20, 25, 30, 35, 40, 45, 50]

/-- Raw first-pass total of a hand: every ace as 11, face cards as 10
(i.e. the stored card values).  Recursive restatement of the first loop of
`calculateHandValue`, used to reason about `sumAndAces`. -/
def rawTotal : Hand → Nat
  | [] => 0
  | c :: rest => (if c.rank = Rank.ace then 11 else c.value) + rawTotal rest

/-- Number of aces in a hand. -/
def countAces : Hand → Nat
  | [] => 0
  | c :: rest => (if c.rank = Rank.ace then 1 else 0) + countAces rest

/-- The ace-demotion loop exactly as the spec words it (§4.2 step 2):
while total > 21 and an undemoted ace remains, subtract 10 and demote one
ace; returns the final total and the number of aces still counted as 11. -/
def specDemote (total : Nat) : Nat → Nat × Nat
  | 0 => (total, 0)
  | n + 1 => if total > 21 then specDemote (total - 10) n else (total, n + 1)

/-- Hand evaluation as described by the spec (§4.2): sum with every ace as
11 and faces as 10, demote aces while busting, soft iff an ace is still
counted as 11. -/
def specEvaluate (hand : Hand) : HandValue :=
  let raw := rawTotal hand
  let (total, acesLeft) := specDemote raw (countAces hand)
  ⟨total, acesLeft > 0⟩

/-- Settlement as the spec states it (§4.5): the ordered first-match rule
list producing the outcome and the bankroll delta. -/
def specSettle (playerHand dealerHand : Hand) (wager : Int) : Outcome × Int :=
  let p := (calculateHandValue playerHand).total
  let d := (calculateHandValue dealerHand).total
  if p > 21 then (.loss, 0)
  else if d > 21 then (.win, 2 * wager)
  else if playerHand.length = 6 ∧ p ≤ 21 then (.win, 2 * wager)
  else if dealerHand.length = 6 ∧ d < 17 then (.win, 2 * wager)
  else if p > d then (.win, 2 * wager)
  else if d > p then (.loss, 0)
  else (.push, wager)

/-- The auto-play decision table as the claim states it: 5-card safety rule
(with plain integer arithmetic for `21 - total ≥ 10`), then stand at 21+,
then the soft table (hit soft 18 iff the up-card value is 9, 10 or 11
(ace)), then the hard table (the claim words hard rows 12 and 13–16 as
"stand iff the up-card value is in the set", so hitting is the negation). -/
def specShouldHit (playerHand : Hand) (dealerUpCard : Card) : Bool :=
  let hv := calculateHandValue playerHand
  let t := hv.total
  let v := dealerUpCardValue dealerUpCard
  if playerHand.length = 5 ∧ (21 : Int) - (t : Int) ≥ 10 then true
  else if t ≥ 21 then false
  else if hv.isSoft then
    if t ≤ 17 then true
    else if t = 18 then v ∈ [9, 10, 11]
    else false
  else
    if t ≤ 11 then true
    else if t = 12 then ¬(v ∈ [4, 5, 6])
    else if 13 ≤ t ∧ t ≤ 16 then ¬(v ∈ [2, 3, 4, 5, 6])
    else false

/-- `shouldAutoPlayHit` with its first branch (the 5-card safety rule)
deleted; everything else verbatim. -/
def shouldAutoPlayHitNoFiveRule (playerHand : Hand) (dealerUpCard : Card)
    (playerCardCount : Nat) : Bool :=
  let hv := calculateHandValue playerHand
  let playerTotal := hv.total
  let playerIsSoft := hv.isSoft
  let v := dealerUpCardValue dealerUpCard
  let _ := playerCardCount
  if playerTotal ≥ 21 then
    false
  else if playerIsSoft then
    if playerTotal ≤ 17 then true
    else if playerTotal = 18 then ¬(v ∈ [2, 3, 4, 5, 6, 7, 8])
    else false
  else
    if playerTotal ≤ 11 then true
    else if playerTotal = 12 then ¬(v ∈ [4, 5, 6])
    else if 13 ≤ playerTotal ∧ playerTotal ≤ 16 then ¬(v ∈ [2, 3, 4, 5, 6])
    else false

/-- One transition of the round state machine: a user command (deal, hit,
stand, toggle auto-play, reset, pick a bet) or a self-driven phase change
(the dealer-turn effect, the result-to-betting effect).  The `deal`
constructor quantifies over the permutation that `shuffleDeck(createDeck())`
produced; `setBet` is restricted to the `select` options, which the UI
offers only in the betting phase. -/
inductive Step : GameState → GameState → Prop where
  | deal (s : GameState) (shuffled : List Card)
      (hperm : shuffled.Perm createDeck) : Step s (dealHand s shuffled)
  | hit (s : GameState) : Step s (hitPlayer s)
  | stand (s : GameState) : Step s (standPlayer s)
  | dealer (s : GameState) (hphase : s.gamePhase = .dealerTurn) :
      Step s (dealerPlayFn s)
  | reset (s : GameState) : Step s (resetGame s)
  | toggle (s : GameState) : Step s (toggleAutoPlay s)
  | setBet (s : GameState) (amount : Int) (hmem : amount ∈ betDenominations)
      (hphase : s.gamePhase = .betting) : Step s { s with betAmount := amount }
  | resultToBetting (s : GameState) (hphase : s.gamePhase = .result) :
      Step s { s with gamePhase := .betting }

/-- States reachable from the component's initial state. -/
def Reachable (s : GameState) : Prop :=
  Relation.ReflTransGen Step initState s

/-- Sample cards used in the concrete evaluations below. -/
def aceHearts : Card := ⟨.hearts, .ace⟩

def kingHearts : Card := ⟨.hearts, .king⟩

def aceSpades : Card := ⟨.spades, .ace⟩

def queenSpades : Card := ⟨.spades, .queen⟩

def nineClubs : Card := ⟨.clubs, .nine⟩

def tenClubs : Card := ⟨.clubs, .ten⟩

/-- A full 52-card shuffle outcome whose last four cards make the initial
deal give the player A♥ K♥ (blackjack) and the dealer A♠ Q♠ (blackjack):
`pop` order is A♥, K♥, A♠, Q♠. -/
def bothBlackjackDeck : List Card :=
  (createDeck.filter
    (fun c => ¬(c = aceHearts ∨ c = kingHearts ∨ c = aceSpades ∨ c = queenSpades)))
    ++ [queenSpades, aceSpades, kingHearts, aceHearts]

/-- A full 52-card shuffle outcome dealing the player A♥ K♥ (blackjack) and
the dealer 9♣ Q♠ (no blackjack). -/
def playerBlackjackDeck : List Card :=
  (createDeck.filter
    (fun c => ¬(c = aceHearts ∨ c = kingHearts ∨ c = nineClubs ∨ c = queenSpades)))
    ++ [queenSpades, nineClubs, kingHearts, aceHearts]

/-- A betting-phase state whose bankroll (5) cannot cover the wager (10). -/
def brokeState : GameState := { initState with bankroll := 5 }

/-- A dealer-turn state in which the dealer already holds six cards
totaling 14 (< 17) while the player stands on 19 with two cards. -/
def charlieState : GameState :=
  { initState with
      gamePhase := Phase.dealerTurn, bankroll := 990,
      playerHand := [tenClubs, nineClubs],
      dealerHand :=
        [⟨.hearts, .two⟩, ⟨.diamonds, .two⟩, ⟨.clubs, .two⟩,
         ⟨.spades, .two⟩, ⟨.hearts, .three⟩, ⟨.diamonds, .three⟩] }

/-- The bankroll/wager facts maintained by every transition: the bankroll
is never negative and the selected wager is positive. -/
def StateInv (s : GameState) : Prop := 0 ≤ s.bankroll ∧ 0 < s.betAmount

/-! ## Helper lemmas about hand evaluation -/

theorem sumAndAces_go (hand : Hand) :
    ∀ a b : Nat,
      hand.foldl
        (fun acc c =>
          if c.rank = Rank.ace then (acc.1 + 11, acc.2 + 1)
          else (acc.1 + c.value, acc.2)) (a, b)
      = (a + rawTotal hand, b + countAces hand) := by
  induction hand with
  | nil => intro a b; simp [rawTotal, countAces]
  | cons c rest ih =>
    intro a b
    by_cases hc : c.rank = Rank.ace <;>
      simp only [List.foldl_cons, rawTotal, countAces, hc, if_true, if_false,
        ih, Prod.mk.injEq] <;> constructor <;> omega

theorem sumAndAces_eq (hand : Hand) :
    sumAndAces hand = (rawTotal hand, countAces hand) := by
  have := sumAndAces_go hand 0 0
  simpa [sumAndAces] using this

theorem adjustAces_eq_specDemote : ∀ n t, adjustAces t n = specDemote t n := by
  intro n
  induction n with
  | zero => intro t; rfl
  | succ n ih =>
    intro t
    simp only [adjustAces, specDemote]
    by_cases ht : t > 21 <;> simp [ht, ih]

theorem adjustAces_snd_le : ∀ n t, (adjustAces t n).2 ≤ n := by
  intro n
  induction n with
  | zero => intro t; simp [adjustAces]
  | succ n ih =>
    intro t
    simp only [adjustAces]
    by_cases ht : t > 21
    · simp only [ht, if_true]
      exact le_trans (ih _) (Nat.le_succ n)
    · simp [ht]

theorem adjustAces_total_eq :
    ∀ n t, (adjustAces t n).1 + 10 * (n - (adjustAces t n).2) = t := by
  intro n
  induction n with
  | zero => intro t; simp [adjustAces]
  | succ n ih =>
    intro t
    simp only [adjustAces]
    by_cases ht : t > 21
    · simp only [ht, if_true]
      have h1 := ih (t - 10)
      have h2 := adjustAces_snd_le n (t - 10)
      omega
    · simp [ht]

theorem calculateHandValue_eq (hand : Hand) :
    calculateHandValue hand =
      ⟨(adjustAces (rawTotal hand) (countAces hand)).1,
       decide ((adjustAces (rawTotal hand) (countAces hand)).2 > 0)⟩ := by
  simp only [calculateHandValue, sumAndAces_eq]

theorem Rank.value_bounds (r : Rank) : 2 ≤ r.value ∧ r.value ≤ 11 := by
  cases r <;> decide

theorem countAces_le_length (hand : Hand) : countAces hand ≤ hand.length := by
  induction hand with
  | nil => simp [countAces]
  | cons c rest ih =>
    simp only [countAces, List.length_cons]
    by_cases hc : c.rank = Rank.ace <;> simp [hc] <;> omega

theorem rawTotal_lower_bound (hand : Hand) :
    9 * countAces hand + 2 * hand.length ≤ rawTotal hand := by
  induction hand with
  | nil => simp [countAces, rawTotal]
  | cons c rest ih =>
    simp only [countAces, rawTotal, List.length_cons]
    by_cases hc : c.rank = Rank.ace
    · simp only [hc, if_true]; omega
    · have := (Rank.value_bounds c.rank).1
      simp only [hc, if_false, Card.value]; omega

theorem soft_total_lower_bound (hand : Hand)
    (hsoft : (calculateHandValue hand).isSoft = true) :
    2 * hand.length + 10 ≤ (calculateHandValue hand).total + countAces hand := by
  rw [calculateHandValue_eq] at hsoft ⊢
  simp only [decide_eq_true_eq] at hsoft
  have h1 := adjustAces_total_eq (countAces hand) (rawTotal hand)
  have h2 := adjustAces_snd_le (countAces hand) (rawTotal hand)
  have h3 := rawTotal_lower_bound hand
  have h4 := countAces_le_length hand
  simp only []
  omega

theorem dealerUpCardValue_eq_value (c : Card) : dealerUpCardValue c = c.value := by
  rcases c with ⟨s, r⟩
  cases r <;> rfl

theorem dealerUpCardValue_bounds (c : Card) :
    2 ≤ dealerUpCardValue c ∧ dealerUpCardValue c ≤ 11 := by
  rw [dealerUpCardValue_eq_value]
  exact Rank.value_bounds c.rank

/-! ## C10 -/

/-- C10: the hand evaluator is a total function, and on the empty hand —
which the program evaluates during the Betting phase — it returns
`{total := 0, isSoft := false}`. -/
theorem evaluate_empty_hand : calculateHandValue [] = ⟨0, false⟩ := rfl

/-! ## C3 -/

/-- C3: `calculateHandValue` computes exactly the spec's evaluation —
sum with every ace as 11 and faces as 10, then repeatedly demote an ace (−10)
while the total exceeds 21 and an undemoted ace remains, soft iff an ace is
still counted as 11 — and in particular evaluates {A,6} to a soft 17,
{A,6,K} to a hard 17, and {A,A,9} to a soft 21, for any suits.  (Purity and
idempotence are inherent: the evaluator is a mathematical function of the
hand alone.) -/
theorem calculateHandValue_follows_spec :
    (∀ hand : Hand, calculateHandValue hand = specEvaluate hand) ∧
    (∀ s1 s2 : Suit,
      calculateHandValue [⟨s1, .ace⟩, ⟨s2, .six⟩] = ⟨17, true⟩) ∧
    (∀ s1 s2 s3 : Suit,
      calculateHandValue [⟨s1, .ace⟩, ⟨s2, .six⟩, ⟨s3, .king⟩] = ⟨17, false⟩) ∧
    (∀ s1 s2 s3 : Suit,
      calculateHandValue [⟨s1, .ace⟩, ⟨s2, .ace⟩, ⟨s3, .nine⟩] = ⟨21, true⟩) := by
  refine ⟨fun hand => ?_, fun s1 s2 => rfl, fun s1 s2 s3 => rfl,
    fun s1 s2 s3 => rfl⟩
  rw [calculateHandValue_eq]
  simp only [specEvaluate, adjustAces_eq_specDemote]

/-! ## C2 -/

/-- C2: for every pair of finished hands and every wager, `determineWinner`
resolves by the spec's ordered first-match rule list: player bust → Loss
(delta 0); dealer bust → Win (+2×wager); player 6-card ≤ 21 → Win
(+2×wager); dealer 6-card < 17 → Win (+2×wager); higher player total → Win
(+2×wager); higher dealer total → Loss (delta 0); equal totals → Push
(+1×wager). -/
theorem determineWinner_follows_spec (playerHand dealerHand : Hand)
    (wager : Int) :
    ((determineWinner playerHand dealerHand wager).result,
     (determineWinner playerHand dealerHand wager).delta)
      = specSettle playerHand dealerHand wager := by
  unfold determineWinner specSettle
  dsimp only
  split_ifs <;> simp <;> ring

/-! ## C4 -/

/-- C4: for every player hand and dealer up-card, the auto-play decision
function (called, as in the source, with the hand's card count) is total and
returns exactly the spec's priority-ordered decision table: 5-card safety
rule, stand at 21+, the soft table (soft 18 hits iff the up-card value is
9, 10 or 11), and the hard table (hard 12 stands iff the up-card value is
in {4,5,6}; hard 13–16 stand iff it is in {2,3,4,5,6}). -/
theorem shouldAutoPlayHit_follows_spec (playerHand : Hand)
    (dealerUpCard : Card) :
    shouldAutoPlayHit playerHand dealerUpCard playerHand.length
      = specShouldHit playerHand dealerUpCard := by
  obtain ⟨hlo, hhi⟩ := dealerUpCardValue_bounds dealerUpCard
  have eguard : (playerHand.length = 5 ∧
      (calculateHandValue playerHand).total ≤ 21 ∧
      21 - (calculateHandValue playerHand).total ≥ 10) ↔
      (playerHand.length = 5 ∧
        (21 : Int) - ((calculateHandValue playerHand).total : Int) ≥ 10) := by
    constructor
    · rintro ⟨h1, h2, h3⟩; exact ⟨h1, by omega⟩
    · rintro ⟨h1, h2⟩; exact ⟨h1, by omega, by omega⟩
  unfold shouldAutoPlayHit specShouldHit
  dsimp only
  simp only [eguard]
  split_ifs <;>
    first
      | rfl
      | (simp only [List.mem_cons, List.not_mem_nil, List.mem_singleton,
            decide_eq_decide]
         revert hlo hhi
         generalize dealerUpCardValue dealerUpCard = v
         intro hlo hhi
         interval_cases v <;> decide)

/-! ## C9 -/

/-- C9: the 5-card safety rule never changes the auto-play decision: a
5-card hand whose total is at most 11 is necessarily hard (any soft 5-card
hand totals at least 15), the hard row already hits on totals ≤ 11, and
`shouldAutoPlayHit` is extensionally equal to the same table with the
5-card branch removed. -/
theorem fiveCardRule_redundant :
    (∀ hand : Hand, hand.length = 5 →
      (calculateHandValue hand).total ≤ 11 →
      (calculateHandValue hand).isSoft = false) ∧
    (∀ hand : Hand, hand.length = 5 →
      (calculateHandValue hand).isSoft = true →
      15 ≤ (calculateHandValue hand).total) ∧
    (∀ (hand : Hand) (dealerUpCard : Card),
      shouldAutoPlayHit hand dealerUpCard hand.length
        = shouldAutoPlayHitNoFiveRule hand dealerUpCard hand.length) := by
  have hsoft15 : ∀ hand : Hand, hand.length = 5 →
      (calculateHandValue hand).isSoft = true →
      15 ≤ (calculateHandValue hand).total := by
    intro hand hlen hs
    have h1 := soft_total_lower_bound hand hs
    have h2 := countAces_le_length hand
    omega
  refine ⟨?_, hsoft15, ?_⟩
  · intro hand hlen h11
    cases hs : (calculateHandValue hand).isSoft with
    | false => rfl
    | true => exact absurd (hsoft15 hand hlen hs) (by omega)
  · intro hand dealerUpCard
    unfold shouldAutoPlayHit shouldAutoPlayHitNoFiveRule
    dsimp only
    split_ifs <;> first | rfl | (exfalso; omega)

/-- Witness for C9 at the concrete 5-card hand 2,2,2,2,3 (hard 11) against
a dealer ten. -/
theorem fiveCardRule_redundant_witness :
    (calculateHandValue
      [⟨Suit.hearts, .two⟩, ⟨.hearts, .three⟩, ⟨.clubs, .two⟩,
       ⟨.spades, .two⟩, ⟨.diamonds, .two⟩]).isSoft = false ∧
    shouldAutoPlayHit
      [⟨Suit.hearts, .two⟩, ⟨.hearts, .three⟩, ⟨.clubs, .two⟩,
       ⟨.spades, .two⟩, ⟨.diamonds, .two⟩] tenClubs 5
      = shouldAutoPlayHitNoFiveRule
      [⟨Suit.hearts, .two⟩, ⟨.hearts, .three⟩, ⟨.clubs, .two⟩,
       ⟨.spades, .two⟩, ⟨.diamonds, .two⟩] tenClubs 5 :=
  ⟨fiveCardRule_redundant.1 _ rfl (by decide),
   fiveCardRule_redundant.2.2 _ tenClubs⟩

/-! ## C5 -/

/-- C5: the dealer draws iff its own hand totals under 17 and holds fewer
than 6 cards; it stands on every total ≥ 17 regardless of card count, stops
once it holds 6 cards regardless of total, and when the draw condition is
false the dealer draw loop draws nothing. -/
theorem dealerShouldDraw_spec (hand : Hand) :
    (dealerShouldDraw hand = true ↔
      (calculateHandValue hand).total < 17 ∧ hand.length < 6) ∧
    (17 ≤ (calculateHandValue hand).total → dealerShouldDraw hand = false) ∧
    (6 ≤ hand.length → dealerShouldDraw hand = false) ∧
    (∀ deck : List Card, dealerShouldDraw hand = false →
      dealerDrawLoop deck hand = (deck, hand, false)) := by
  refine ⟨?_, ?_, ?_, ?_⟩
  · simp [dealerShouldDraw]
  · intro h17; simp [dealerShouldDraw]; omega
  · intro h6; simp [dealerShouldDraw]; omega
  · intro deck hfalse
    rw [dealerDrawLoop]
    simp [hfalse]

/-- Witness for C5 at a 6-card dealer hand totaling 12 and at a 2-card
hand totaling 20. -/
theorem dealerShouldDraw_spec_witness :
    dealerShouldDraw
      [⟨Suit.hearts, .two⟩, ⟨.hearts, .three⟩, ⟨.clubs, .two⟩,
       ⟨.spades, .two⟩, ⟨.diamonds, .two⟩, ⟨.clubs, .ace⟩] = false ∧
    dealerShouldDraw [tenClubs, queenSpades] = false ∧
    dealerDrawLoop [aceHearts] [tenClubs, queenSpades]
      = ([aceHearts], [tenClubs, queenSpades], false) :=
  ⟨(dealerShouldDraw_spec _).2.2.1 (by decide),
   (dealerShouldDraw_spec [tenClubs, queenSpades]).2.1 (by decide),
   (dealerShouldDraw_spec [tenClubs, queenSpades]).2.2.2 [aceHearts]
     ((dealerShouldDraw_spec [tenClubs, queenSpades]).2.1 (by decide))⟩

/-! ## C6 -/

/-- C6: a deal attempted from Betting or Result with bankroll below the
wager is rejected with no state change — bankroll, throughput, deck, both
hands and phase are exactly as before — and auto-play ends up disengaged,
so an engaged auto-play can never complete a deal while bankroll < wager. -/
theorem deal_insufficient_funds (s : GameState) (shuffled : List Card)
    (hphase : s.gamePhase = Phase.betting ∨ s.gamePhase = Phase.result)
    (hfunds : s.bankroll < s.betAmount) :
    (dealHand s shuffled).bankroll = s.bankroll ∧
    (dealHand s shuffled).throughput = s.throughput ∧
    (dealHand s shuffled).deck = s.deck ∧
    (dealHand s shuffled).playerHand = s.playerHand ∧
    (dealHand s shuffled).dealerHand = s.dealerHand ∧
    (dealHand s shuffled).gamePhase = s.gamePhase ∧
    (dealHand s shuffled).autoPlayMode = false := by
  unfold dealHand
  rw [if_neg (not_not_intro hphase), if_pos hfunds]
  refine ⟨rfl, rfl, rfl, rfl, rfl, rfl, ?_⟩
  cases hap : s.autoPlayMode <;> simp

/-- Witness for C6 at the concrete broke state (bankroll 5, wager 10) in
the betting phase. -/
theorem deal_insufficient_funds_witness :
    (dealHand brokeState createDeck).bankroll = brokeState.bankroll ∧
    (dealHand brokeState createDeck).throughput = brokeState.throughput ∧
    (dealHand brokeState createDeck).deck = brokeState.deck ∧
    (dealHand brokeState createDeck).playerHand = brokeState.playerHand ∧
    (dealHand brokeState createDeck).dealerHand = brokeState.dealerHand ∧
    (dealHand brokeState createDeck).gamePhase = brokeState.gamePhase ∧
    (dealHand brokeState createDeck).autoPlayMode = false :=
  deal_insufficient_funds brokeState createDeck (Or.inl rfl) (by decide)

/-! ## C8 -/

/-- C8: the dealer 6-card-Charlie loss is resolved identically on both code
paths: for a dealer hand of exactly 6 cards totaling under 17 (player not
busted and without a 6-card hand), the draw loop's direct resolution in
`dealerPlay` and the matching rule in `determineWinner` both give the
player a Win with the same +2×wager payout. -/
theorem dealerCharlie_paths_agree (s : GameState)
    (h6 : s.dealerHand.length = 6)
    (h17 : (calculateHandValue s.dealerHand).total < 17)
    (hp21 : (calculateHandValue s.playerHand).total ≤ 21)
    (hp6 : s.playerHand.length ≠ 6) :
    (dealerPlayFn s).lastHandResult = Outcome.win ∧
    (dealerPlayFn s).bankroll = s.bankroll + s.betAmount * 2 ∧
    (determineWinner s.playerHand s.dealerHand s.betAmount).result
      = Outcome.win ∧
    (determineWinner s.playerHand s.dealerHand s.betAmount).delta
      = s.betAmount * 2 := by
  have hstop : dealerShouldDraw s.dealerHand = false := by
    simp [dealerShouldDraw]; omega
  have hloop : dealerDrawLoop s.deck s.dealerHand
      = (s.deck, s.dealerHand, false) := by
    rw [dealerDrawLoop]; simp [hstop]
  have hdirect : (dealerPlayFn s).lastHandResult = Outcome.win ∧
      (dealerPlayFn s).bankroll = s.bankroll + s.betAmount * 2 := by
    unfold dealerPlayFn
    rw [hloop]
    dsimp only
    rw [if_pos ⟨h6, h17⟩]
    exact ⟨rfl, rfl⟩
  have hsettle : (determineWinner s.playerHand s.dealerHand s.betAmount).result
      = Outcome.win ∧
      (determineWinner s.playerHand s.dealerHand s.betAmount).delta
        = s.betAmount * 2 := by
    unfold determineWinner
    dsimp only
    have n1 : ¬((calculateHandValue s.playerHand).total > 21) := by omega
    have n2 : ¬((calculateHandValue s.dealerHand).total > 21) := by omega
    have n3 : ¬(s.playerHand.length = 6 ∧
        (calculateHandValue s.playerHand).total ≤ 21) := fun hc => hp6 hc.1
    rw [if_neg n1, if_neg n2, if_neg n3, if_pos ⟨h6, h17⟩]
    exact ⟨rfl, rfl⟩
  exact ⟨hdirect.1, hdirect.2, hsettle.1, hsettle.2⟩

/-- Witness for C8 at the concrete six-card dealer hand totaling 14
against a two-card player 19. -/
theorem dealerCharlie_paths_agree_witness :
    (dealerPlayFn charlieState).lastHandResult = Outcome.win ∧
    (dealerPlayFn charlieState).bankroll
      = charlieState.bankroll + charlieState.betAmount * 2 ∧
    (determineWinner charlieState.playerHand charlieState.dealerHand
      charlieState.betAmount).result = Outcome.win ∧
    (determineWinner charlieState.playerHand charlieState.dealerHand
      charlieState.betAmount).delta = charlieState.betAmount * 2 :=
  dealerCharlie_paths_agree charlieState (by decide) (by decide) (by decide)
    (by decide)

/-! ## C1 -/

/-- C1 (code bug): dealing with both sides holding a natural blackjack does
resolve at deal time to the Result phase with the wager returned (the push
payout), but the recorded outcome is Loss, not Push: the dealer-blackjack
`if` at the end of `dealHand` is not an `else if`, so it overwrites the
Push result the both-blackjack branch just set.  The player-alone half of
the claim holds: Win with the 1:1 payout (+2×wager credited after the
wager debit). -/
theorem naturalBlackjack_deal_behavior :
    ((dealHand initState bothBlackjackDeck).gamePhase = Phase.result ∧
     (dealHand initState bothBlackjackDeck).lastHandResult = Outcome.loss ∧
     (dealHand initState bothBlackjackDeck).bankroll = 1000 ∧
     (dealHand initState bothBlackjackDeck).playerHand
       = [aceHearts, kingHearts] ∧
     (dealHand initState bothBlackjackDeck).dealerHand
       = [aceSpades, queenSpades]) ∧
    ((dealHand initState playerBlackjackDeck).gamePhase = Phase.result ∧
     (dealHand initState playerBlackjackDeck).lastHandResult = Outcome.win ∧
     (dealHand initState playerBlackjackDeck).bankroll = 1010) := by
  decide

/-! ## C7: bankroll invariant machinery -/

theorem betDenominations_pos : ∀ a ∈ betDenominations, (0 : Int) < a := by
  decide

theorem determineWinner_delta_nonneg (p d : Hand) (bet : Int)
    (hbet : 0 ≤ bet) : 0 ≤ (determineWinner p d bet).delta := by
  unfold determineWinner
  dsimp only
  split_ifs <;> dsimp only <;> omega

theorem dealHand_inv (s : GameState) (shuffled : List Card)
    (h : StateInv s) : StateInv (dealHand s shuffled) := by
  obtain ⟨hb, hw⟩ := h
  unfold dealHand
  by_cases h1 : ¬(s.gamePhase = Phase.betting ∨ s.gamePhase = Phase.result)
  · rw [if_pos h1]; exact ⟨hb, hw⟩
  · rw [if_neg h1]
    by_cases h2 : s.bankroll < s.betAmount
    · rw [if_pos h2]; exact ⟨hb, hw⟩
    · rw [if_neg h2]
      rcases hd : draw4 shuffled with _ | ⟨c1, c2, c3, c4, rest⟩
      · exact ⟨hb, hw⟩
      · dsimp only
        split_ifs <;> exact ⟨by dsimp only; omega, by dsimp only; omega⟩

theorem hitPlayer_inv (s : GameState) (h : StateInv s) :
    StateInv (hitPlayer s) := by
  obtain ⟨hb, hw⟩ := h
  unfold hitPlayer
  by_cases h1 : ¬(s.gamePhase = Phase.playerTurn ∨ s.gamePhase = Phase.autoPlay)
  · rw [if_pos h1]; exact ⟨hb, hw⟩
  · rw [if_neg h1]
    rcases hp : popCard s.deck with _ | ⟨c, rest⟩
    · exact ⟨hb, hw⟩
    · dsimp only
      split_ifs <;> exact ⟨by dsimp only; omega, by dsimp only; omega⟩

theorem dealerPlayFn_inv (s : GameState) (h : StateInv s) :
    StateInv (dealerPlayFn s) := by
  obtain ⟨hb, hw⟩ := h
  unfold dealerPlayFn
  rcases hl : dealerDrawLoop s.deck s.dealerHand with ⟨nd, nh, br⟩
  dsimp only
  split_ifs with hch
  · exact ⟨by dsimp only; omega, by dsimp only; omega⟩
  · have hdelta := determineWinner_delta_nonneg s.playerHand nh s.betAmount
      (le_of_lt hw)
    exact ⟨by dsimp only; omega, by dsimp only; omega⟩

theorem step_preserves_inv (s s' : GameState) (hstep : Step s s')
    (h : StateInv s) : StateInv s' := by
  cases hstep with
  | deal shuffled hperm => exact dealHand_inv s shuffled h
  | hit => exact hitPlayer_inv s h
  | stand =>
    unfold standPlayer
    split_ifs <;> exact ⟨h.1, h.2⟩
  | dealer hphase => exact dealerPlayFn_inv s h
  | reset => exact ⟨by norm_num [resetGame], h.2⟩
  | toggle => exact ⟨h.1, h.2⟩
  | setBet amount hmem hphase =>
    exact ⟨h.1, betDenominations_pos amount hmem⟩
  | resultToBetting hphase => exact ⟨h.1, h.2⟩

theorem reachable_inv (s : GameState) (h : Reachable s) : StateInv s := by
  unfold Reachable at h
  induction h with
  | refl => exact ⟨by norm_num [initState], by norm_num [initState]⟩
  | tail hr hstep ih => exact step_preserves_inv _ _ hstep ih

theorem hitPlayer_bankroll_mono (s : GameState) (hw : 0 ≤ s.betAmount) :
    s.bankroll ≤ (hitPlayer s).bankroll := by
  unfold hitPlayer
  by_cases h1 : ¬(s.gamePhase = Phase.playerTurn ∨ s.gamePhase = Phase.autoPlay)
  · rw [if_pos h1]
  · rw [if_neg h1]
    rcases hp : popCard s.deck with _ | ⟨c, rest⟩
    · exact le_refl _
    · dsimp only
      split_ifs <;> dsimp only <;> omega

theorem dealerPlayFn_bankroll_mono (s : GameState) (hw : 0 ≤ s.betAmount) :
    s.bankroll ≤ (dealerPlayFn s).bankroll := by
  unfold dealerPlayFn
  rcases hl : dealerDrawLoop s.deck s.dealerHand with ⟨nd, nh, br⟩
  dsimp only
  split_ifs with hch
  · dsimp only; omega
  · have hdelta := determineWinner_delta_nonneg s.playerHand nh s.betAmount hw
    dsimp only; omega

/-! ## C7 -/

/-- C7, counterexample to "the only operation that decreases bankroll is a
successful deal": after winning the opening hand (bankroll 1010) —
a reachable state — the reset operation is a legal step and lowers the
bankroll back to its initial 1000. -/
theorem reset_decreases_bankroll :
    Reachable (dealHand initState playerBlackjackDeck) ∧
    Step (dealHand initState playerBlackjackDeck)
      (resetGame (dealHand initState playerBlackjackDeck)) ∧
    (resetGame (dealHand initState playerBlackjackDeck)).bankroll
      < (dealHand initState playerBlackjackDeck).bankroll := by
  refine ⟨?_, Step.reset _, by decide⟩
  exact Relation.ReflTransGen.single
    (Step.deal initState playerBlackjackDeck (by decide))

/-- C7 (amended): in every reachable state of the round state machine the
bankroll is ≥ 0 and the wager is positive; a successful deal debits the
wager only under the precondition bankroll ≥ wager, reset restores the
bankroll to its initial (nonnegative) 1000, and every other operation —
hit, stand, the dealer turn, toggling auto-play — leaves the bankroll
unchanged or increases it. -/
theorem bankroll_never_negative :
    (∀ s : GameState, Reachable s → 0 ≤ s.bankroll ∧ 0 < s.betAmount) ∧
    (∀ s : GameState, 0 ≤ s.betAmount → s.bankroll ≤ (hitPlayer s).bankroll) ∧
    (∀ s : GameState, s.bankroll ≤ (standPlayer s).bankroll) ∧
    (∀ s : GameState, 0 ≤ s.betAmount →
      s.bankroll ≤ (dealerPlayFn s).bankroll) ∧
    (∀ s : GameState, s.bankroll ≤ (toggleAutoPlay s).bankroll) ∧
    (∀ s : GameState, (resetGame s).bankroll = 1000) ∧
    (∀ s s' : GameState, 0 ≤ s.betAmount → Step s s' →
      s'.bankroll < s.bankroll →
      (∃ shuffled : List Card, s' = dealHand s shuffled) ∨ s' = resetGame s) := by
  refine ⟨fun s h => reachable_inv s h, hitPlayer_bankroll_mono, fun s => ?_,
    dealerPlayFn_bankroll_mono, fun s => le_refl _, fun s => rfl,
    fun s s' hbet hstep => ?_⟩
  · unfold standPlayer
    split_ifs <;> exact le_refl _
  · cases hstep with
    | deal shuffled hperm => exact fun hdec => Or.inl ⟨shuffled, rfl⟩
    | reset => exact fun hdec => Or.inr rfl
    | hit =>
      exact fun hdec => absurd hdec (not_lt.mpr (hitPlayer_bankroll_mono s hbet))
    | stand =>
      unfold standPlayer
      split_ifs <;> exact fun hdec => absurd hdec (lt_irrefl _)
    | dealer hphase =>
      exact fun hdec =>
        absurd hdec (not_lt.mpr (dealerPlayFn_bankroll_mono s hbet))
    | toggle => exact fun hdec => absurd hdec (lt_irrefl _)
    | setBet amount hmem hphase => exact fun hdec => absurd hdec (lt_irrefl _)
    | resultToBetting hphase => exact fun hdec => absurd hdec (lt_irrefl _)

/-- Witness for C7 at the initial state (reachable by the empty run) and
at the concrete broke state. -/
theorem bankroll_never_negative_witness :
    (0 ≤ initState.bankroll ∧ 0 < initState.betAmount) ∧
    brokeState.bankroll ≤ (hitPlayer brokeState).bankroll :=
  ⟨bankroll_never_negative.1 initState Relation.ReflTransGen.refl,
   bankroll_never_negative.2.1 brokeState (by decide)⟩

end Blackjack
